import Mathlib

/-!
Verification development for the vocabulary-acquisition app
(`vocab_app.py`): a shallow embedding of its generation-and-deduplication
pipeline (item store, generation-history tracker, request builder, result
validator, page-level rounds) together with theorems settling the spec's
claims about it.

Python strings are modelled as Lean `String`; Python `None`-able values as
`Option`; SQLite rows as a Lean structure; the nondeterminism of
`ORDER BY RANDOM()` as an existentially quantified permutation; exceptions
as `Except`.
-/

/- ===== String helpers: models of Python str.strip / str.lower and of
   Python's lexicographic string comparison (used by sorted()). ===== -/

/-- Model of Python `str.strip()`: drop whitespace from both ends. -/
def py_strip (s : String) : String :=
  ⟨((s.data.dropWhile Char.isWhitespace).reverse.dropWhile Char.isWhitespace).reverse⟩

/-- Model of Python `str.lower()`: lower-case every character. -/
def py_lower (s : String) : String := ⟨s.data.map Char.toLower⟩

/-- Lexicographic comparison of character lists by code point, the order
Python's `sorted()` uses on strings. -/
def chars_le : List Char → List Char → Bool
  | [], _ => true
  | _ :: _, [] => false
  | a :: as, b :: bs =>
    if a.toNat < b.toNat then true
    else if b.toNat < a.toNat then false
    else chars_le as bs

/-- Lexicographic string comparison by code point. -/
def str_le (a b : String) : Bool := chars_le a.data b.data

/- ===== Error taxonomy ===== -/

/-- Failures on the generation path (spec section 7). The code surfaces all
of them as Python exceptions caught by the page handlers. -/
inductive GenError
  | configurationMissing
  | invalidRequest
  | generationUnavailable
  | malformedGenerationOutput
deriving Repr, DecidableEq

/-- SQLite errors relevant to this program: the NOT NULL constraint on
`word`, and the OperationalError raised by `ALTER TABLE ... ADD COLUMN`
when the column already exists. -/
inductive SqlError
  | notNullViolation
  | duplicateColumn
deriving Repr, DecidableEq

/- ===== Data model ===== -/

/-- An item as handed to `insert_vocab_items` / the history tracker: a dict
whose fields are read with `.get(...)`, hence every field is optional
(`it.get(k)` yields `None` when `k` is absent). -/
structure VocabItem where
  word : Option String
  meaning_en : Option String
  meaning_zh : Option String
  example_sentence : Option String
deriving Repr, DecidableEq

/-- A row of the `vocab` table (vocab_app.py lines 22-36): `word` is
NOT NULL, every other payload column is nullable, `id` is the
auto-increment primary key and `created_at` the insertion timestamp. -/
structure StoredEntry where
  id : Nat
  word : String
  meaning_en : Option String
  meaning_zh : Option String
  example_sentence : Option String
  topic : Option String
  tag : Option String
  difficulty : Option Int
  created_at : String
deriving Repr, DecidableEq

/-- The vocab table: rows in insertion order plus the next auto-increment
id SQLite will assign. -/
structure Store where
  rows : List StoredEntry
  nextId : Nat
deriving Repr, DecidableEq

/-- A freshly created database: no rows, ids start at 1. -/
def Store.empty : Store := ⟨[], 1⟩

/- ===== insert_vocab_items (vocab_app.py lines 46-78) ===== -/

/-- The INSERT loop of `insert_vocab_items`: one INSERT per item, executed
in order inside a single transaction. `it.get("word")` returning `None`
violates the NOT NULL constraint on `word` and raises, aborting the loop
before the final `conn.commit()`; rows already executed are rolled back. -/
def run_inserts (nid : Nat) (items : List VocabItem) (topic tag : Option String)
    (difficulty : Option Int) (now : String) : Except SqlError (List StoredEntry) :=
  match items with
  | [] => .ok []
  | it :: rest =>
    match it.word with
    | none => .error .notNullViolation
    | some w =>
      match run_inserts (nid + 1) rest topic tag difficulty now with
      | .error e => .error e
      | .ok tailRows =>
        .ok (⟨nid, w, it.meaning_en, it.meaning_zh, it.example_sentence, topic, tag,
              difficulty, now⟩ :: tailRows)

/-- Outcome of `insert_vocab_items`: the resulting store (or the error), and
whether a database connection was opened at all. -/
structure InsertOutcome where
  result : Except SqlError Store
  opened_connection : Bool
deriving Repr

/-- Model of `insert_vocab_items(items, topic, tag, difficulty)`
(vocab_app.py lines 46-78). An empty `items` returns at once, before
`sqlite3.connect`. Otherwise all INSERTs run in one transaction committed
at the end, so an error leaves the durable store untouched. `now` is the
clock value CURRENT_TIMESTAMP assigns to `created_at`. -/
def insert_vocab_items (st : Store) (items : List VocabItem) (topic tag : Option String)
    (difficulty : Option Int) (now : String) : InsertOutcome :=
  if items.isEmpty then ⟨.ok st, false⟩
  else
    match run_inserts st.nextId items topic tag difficulty now with
    | .error e => ⟨.error e, true⟩
    | .ok newRows => ⟨.ok ⟨st.rows ++ newRows, st.nextId + items.length⟩, true⟩

/-- One call to `insert_vocab_items` together with its arguments. -/
structure InsertBatch where
  items : List VocabItem
  topic : Option String
  tag : Option String
  difficulty : Option Int
  now : String
deriving Repr, DecidableEq

/-- The durable effect of one `insert_vocab_items` call: the new store on
success, the unchanged store when the transaction aborted. -/
def apply_insert (st : Store) (b : InsertBatch) : Store :=
  match (insert_vocab_items st b.items b.topic b.tag b.difficulty b.now).result with
  | .ok st' => st'
  | .error _ => st

/-- Replay a sequence of insert calls against a fresh database. -/
def replay (batches : List InsertBatch) : Store :=
  batches.foldl apply_insert Store.empty

/- ===== get_recent_items (vocab_app.py lines 111-125) ===== -/

/-- The `ORDER BY id DESC` comparison. -/
def le_id (a b : StoredEntry) : Bool := b.id ≤ a.id

/-- Model of `get_recent_items(limit)` (vocab_app.py lines 111-125):
`SELECT ... FROM vocab ORDER BY id DESC LIMIT ?`. -/
def get_recent_items (limit : Nat) (st : Store) : List StoredEntry :=
  (st.rows.mergeSort le_id).take limit

/- ===== get_random_items (vocab_app.py lines 81-108) ===== -/

/-- The row population `get_random_items` draws from: the whole table when
`difficulty` is None, else the rows matching `WHERE difficulty = ?`. -/
def matching_rows (st : Store) (difficulty : Option Int) : List StoredEntry :=
  match difficulty with
  | none => st.rows
  | some d => st.rows.filter (fun r => decide (r.difficulty = some d))

/-- Model of `get_random_items(limit, difficulty)` (vocab_app.py lines
81-108): `ORDER BY RANDOM() LIMIT ?` returns the first `limit` rows of some
permutation of the (optionally filtered) population; which permutation is
nondeterministic, so the call is modelled as a relation between inputs and
a possible result. -/
def get_random_items_result (st : Store) (limit : Nat) (difficulty : Option Int)
    (res : List StoredEntry) : Prop :=
  ∃ shuffled : List StoredEntry,
    shuffled.Perm (matching_rows st difficulty) ∧ res = shuffled.take limit

/- ===== Result validator (vocab_app.py lines 215-221 and 276-282) ===== -/

/-- JSON values, the codomain of Python's `json.loads`. -/
inductive Json
  | null
  | bool (b : Bool)
  | num (n : Int)
  | str (s : String)
  | arr (elems : List Json)
  | obj (fields : List (String × Json))

/-- Model of `return json.loads(content)` — the entire validation step of
`call_gpt_for_vocab` / `call_gpt_for_phrasal_verbs`. The input is the
outcome of JSON decoding the raw response text: `none` when the text is not
valid JSON (json.loads raises json.JSONDecodeError, the program's
MalformedGenerationOutput), `some v` when it decodes to the value `v`. The
code returns the decoded value unchanged: no shape check of any kind is
performed on it or on its elements. -/
def parse_generation_output (decoded : Option Json) : Except GenError Json :=
  match decoded with
  | none => .error .malformedGenerationOutput
  | some v => .ok v

/-- Whether an object field list carries a `word` field. -/
def json_has_word (j : Json) : Bool :=
  match j with
  | .obj fields => fields.any (fun p => decide (p.1 = "word"))
  | _ => false

/-- Modelled from the spec (section 4.4), for comparison with the code: a
well-formed item is a structured object supplying at least `word`; a bare
string is not well-formed. -/
def spec_wellformed_item (j : Json) : Bool :=
  match j with
  | .obj _ => json_has_word j
  | _ => false

/- ===== Generation history tracker (vocab_app.py lines 293-296, 320-327,
   373-375, 396-403): an in-session dict from dedup context to a set of
   normalized words. The topic page keys it by normalized topic string, the
   phrasal page by difficulty; both run the same lookup / absorb logic, so
   it is embedded once, generic in the key type. The Python set is
   modelled as a duplicate-free list (order irrelevant: every read sorts). -/

/-- Dict lookup with default empty set:
`history.get(context, set())`. -/
def hist_lookup {κ : Type} [DecidableEq κ] (h : List (κ × List String)) (k : κ) :
    List String :=
  match h.find? (fun p => decide (p.1 = k)) with
  | some p => p.2
  | none => []

/-- Dict assignment `history[context] = s`: the new binding shadows any
older one. -/
def hist_update {κ : Type} [DecidableEq κ] (h : List (κ × List String)) (k : κ)
    (v : List String) : List (κ × List String) :=
  (k, v) :: h.filter (fun p => !decide (p.1 = k))

/-- The word an item contributes to history: `(it.get("word") or "")`. -/
def item_word (it : VocabItem) : String := it.word.getD ""

/-- The normalization applied before adding a word to history:
`(it.get("word") or "").strip().lower()`. -/
def normalize_word (it : VocabItem) : String := py_lower (py_strip (item_word it))

/-- `set.add(w)` on the list model of a set. -/
def add_word (s : List String) (w : String) : List String :=
  if w ∈ s then s else s ++ [w]

/-- The absorb loop body: `for it in items: w = ...; if w: hist_set.add(w)`. -/
def absorb_words (s : List String) (items : List VocabItem) : List String :=
  items.foldl
    (fun acc it =>
      let w := normalize_word it
      if w = "" then acc else add_word acc w)
    s

/-- Absorbing a batch into a context's history set
(vocab_app.py lines 320-327 and 396-403). -/
def absorb {κ : Type} [DecidableEq κ] (h : List (κ × List String)) (k : κ)
    (items : List VocabItem) : List (κ × List String) :=
  hist_update h k (absorb_words (hist_lookup h k) items)

/-- Reading a context's forbidden list:
`sorted(history.get(context, set()))` (vocab_app.py lines 296 and 375). -/
def get_forbidden {κ : Type} [DecidableEq κ] (h : List (κ × List String)) (k : κ) :
    List String :=
  (hist_lookup h k).mergeSort str_le

/- ===== Request builder (vocab_app.py lines 162-214 and 224-275) ===== -/

/-- The deduplicated, sorted forbidden-term list:
`sorted({w.strip() for w in forbidden_words if w})`. -/
def unique_terms (forbidden_words : List String) : List String :=
  (((forbidden_words.filter (fun w => decide (w ≠ ""))).map py_strip).dedup).mergeSort str_le

/-- Opening text of the vocab do-not-reuse clause. -/
def vocab_forbidden_intro : String :=
  "\nImportant:\n- Do NOT include any of these previously generated words or phrases (avoid exact matches):\n  "

/-- Closing text of the vocab do-not-reuse clause. -/
def vocab_forbidden_outro : String :=
  "\n- Prefer new vocabulary rather than repeating the same items.\n"

/-- Opening text of the phrasal do-not-reuse clause. -/
def phrasal_forbidden_intro : String :=
  "\nImportant:\n- Do NOT include any of these previously generated phrasal verbs (avoid exact matches):\n  "

/-- Closing text of the phrasal do-not-reuse clause. -/
def phrasal_forbidden_outro : String :=
  "\n- Prefer new phrasal verbs rather than repeating the same items.\n"

/-- The `forbidden_block` of `call_gpt_for_vocab` (lines 170-180): empty
when no forbidden words survive, else the rendered clause joining the
first 200 sorted unique terms with a comma. -/
def forbidden_block_vocab (forbidden_words : List String) : String :=
  if forbidden_words.isEmpty then ""
  else
    let unique := unique_terms forbidden_words
    if unique.isEmpty then ""
    else
      vocab_forbidden_intro ++ String.intercalate ", " (unique.take 200)
        ++ vocab_forbidden_outro

/-- The `forbidden_block` of `call_gpt_for_phrasal_verbs` (lines 232-242). -/
def forbidden_block_phrasal (forbidden_words : List String) : String :=
  if forbidden_words.isEmpty then ""
  else
    let unique := unique_terms forbidden_words
    if unique.isEmpty then ""
    else
      phrasal_forbidden_intro ++ String.intercalate ", " (unique.take 200)
        ++ phrasal_forbidden_outro

/-- The full instruction text `call_gpt_for_vocab` sends (lines 182-214),
with the f-string holes filled from the given arguments. -/
def vocab_prompt (topic : String) (num_items difficulty : Int)
    (forbidden_words : List String) (random_seed : Int) : String :=
  "\nYou are an English tutor for a Chinese ESL student in the United States.\n\nGenerate "
    ++ toString num_items
    ++ " daily-life English words or short phrases\nfor the topic \""
    ++ topic
    ++ "\", with rarity level "
    ++ toString difficulty
    ++ " on a 1–5 scale:\n\n1 = very common, basic, used every day\n2 = common but slightly more specific\n3 = moderately uncommon but useful\n4 = uncommon but natural in real conversations\n5 = rare/advanced but practical and expressive\n\n"
    ++ forbidden_block_vocab forbidden_words
    ++ "\n\nAdditional instructions:\n- Every time this request is called, you MUST generate a NEW and DIFFERENT\n  set of vocabulary, even if the topic and difficulty are the same.\n- Use the random seed below to diversify your choice.\n- Avoid only the most obvious textbook examples; explore more natural daily language.\n\nRandom seed for this generation: "
    ++ toString random_seed
    ++ "\n\nReturn ONLY valid JSON in this exact format (no explanation, no markdown):\n\n[\n  \x7b\n    \"word\": \"checkup\",\n    \"meaning_en\": \"a medical examination to see if you are healthy\",\n    \"meaning_zh\": \"体检；检查身体\",\n    \"example\": \"I scheduled a checkup with my doctor for next week.\"\n  \x7d\n]\n"

/-- The full instruction text `call_gpt_for_phrasal_verbs` sends
(lines 244-275). -/
def phrasal_prompt (num_items difficulty : Int) (forbidden_words : List String)
    (random_seed : Int) : String :=
  "\nGenerate "
    ++ toString num_items
    ++ " useful English phrasal verbs used in daily life,\nwith rarity level "
    ++ toString difficulty
    ++ " (1 = common/basic, 5 = rare/advanced).\n\nDefinitions:\n1 = very common and basic (used every day)\n2 = common but slightly more advanced\n3 = moderately uncommon but helpful for fluency\n4 = uncommon but expressive, more nuanced\n5 = rare, advanced but still practical phrasal verbs\n\n"
    ++ forbidden_block_phrasal forbidden_words
    ++ "\n\nAdditional instructions:\n- Every time this request is called, you MUST generate a NEW and DIFFERENT\n  set of phrasal verbs, even with the same difficulty level.\n- Use the random seed below to diversify your choice.\n- Avoid only textbook-style examples; focus on natural spoken English.\n\nRandom seed for this generation: "
    ++ toString random_seed
    ++ "\n\nReturn ONLY valid JSON in this exact format (no explanation, no markdown):\n\n[\n  \x7b\n    \"word\": \"dress up\",\n    \"meaning_en\": \"to put on nice or formal clothes\",\n    \"meaning_zh\": \"盛装打扮\",\n    \"example\": \"We have to dress up for the wedding this weekend.\"\n  \x7d\n]\n"

/-- The construction stage of `call_gpt_for_vocab` (lines 162-214),
everything the function does before the network call: no check of
`num_items` or `difficulty` exists in the code, so for every input the
stage succeeds with the built instruction; `random_seed` stands for the
`random.randint(1, 1_000_000)` draw. -/
def call_gpt_for_vocab_request (topic : String) (num_items difficulty : Int)
    (forbidden_words : List String) (random_seed : Int) : Except GenError String :=
  .ok (vocab_prompt topic num_items difficulty forbidden_words random_seed)

/-- The construction stage of `call_gpt_for_phrasal_verbs` (lines 224-275),
likewise free of any parameter validation. -/
def call_gpt_for_phrasal_verbs_request (num_items difficulty : Int)
    (forbidden_words : List String) (random_seed : Int) : Except GenError String :=
  .ok (phrasal_prompt num_items difficulty forbidden_words random_seed)

/- ===== init_db (vocab_app.py lines 18-43) ===== -/

/-- The database file as `init_db` sees it: whether the `vocab` table
exists, whether it has the `difficulty` column, and its rows. -/
structure DB where
  tableExists : Bool
  hasDifficulty : Bool
  rows : List StoredEntry
deriving Repr, DecidableEq

/-- `CREATE TABLE IF NOT EXISTS vocab (...)` (lines 22-36): a no-op when
the table exists; otherwise creates the empty table with the full column
set, `difficulty` included. -/
def create_table_if_not_exists (db : DB) : DB :=
  if db.tableExists then db else ⟨true, true, []⟩

/-- `ALTER TABLE vocab ADD COLUMN difficulty INTEGER;` (line 39): raises
sqlite3.OperationalError when the column already exists; otherwise adds
the column, existing rows getting NULL in it. -/
def alter_table_add_difficulty (db : DB) : Except SqlError DB :=
  if db.hasDifficulty then .error .duplicateColumn
  else .ok ⟨db.tableExists, true, db.rows.map (fun r => { r with difficulty := none })⟩

/-- Model of `init_db()` (lines 18-43): create the table if absent, then
try to add the `difficulty` column, swallowing the OperationalError the
ALTER raises when the column is already there. -/
def init_db (db : DB) : Except SqlError DB :=
  let db1 := create_table_if_not_exists db
  match alter_table_add_difficulty db1 with
  | .error _ => .ok db1
  | .ok db2 => .ok db2

/- ===== Page-level generation rounds (vocab_app.py lines 286-327 and
   367-403): the state-changing part of one button click. ===== -/

/-- The per-session state the two generation pages read and write, plus
the durable store (which a generation round never touches: saving is a
separate button). -/
structure SessionState where
  store : Store
  vocab_history : List (String × List String)
  phrasal_history : List (Int × List String)
  last_vocab_items : Option (List VocabItem)
  last_vocab_topic : Option String
  last_vocab_difficulty : Option Int
  last_phrasal_items : Option (List VocabItem)
  last_phrasal_difficulty : Option Int
deriving Repr

/-- One round of `page_generate_vocab` (lines 298-327), from the button
click: `outcome` is the result of `call_gpt_for_vocab` — items on success,
the raised exception (transport failure or json.loads failure) otherwise.
The missing API key and the error case both `return` before any state is
touched; only full success stores the batch and absorbs it into the
topic's history. -/
def page_generate_vocab_round (s : SessionState) (topic : String) (difficulty : Int)
    (apiKeySet : Bool) (outcome : Except GenError (List VocabItem)) : SessionState :=
  if !apiKeySet then s
  else
    match outcome with
    | .error _ => s
    | .ok items =>
      let normalized_topic := py_lower (py_strip topic)
      { s with
        last_vocab_items := some items
        last_vocab_topic := some topic
        last_vocab_difficulty := some difficulty
        vocab_history := absorb s.vocab_history normalized_topic items }

/-- One round of `page_generate_phrasal_verbs` (lines 377-403), the phrasal
twin of the vocab round, with history keyed by difficulty. -/
def page_generate_phrasal_verbs_round (s : SessionState) (difficulty : Int)
    (apiKeySet : Bool) (outcome : Except GenError (List VocabItem)) : SessionState :=
  if !apiKeySet then s
  else
    match outcome with
    | .error _ => s
    | .ok items =>
      { s with
        last_phrasal_items := some items
        last_phrasal_difficulty := some difficulty
        phrasal_history := absorb s.phrasal_history difficulty items }

/- ===== Invariants and concrete example values ===== -/

/-- Well-formedness of a store reachable by inserts: ids strictly increase
in insertion order and stay below the next auto-increment id. -/
def StoreWF (st : Store) : Prop :=
  st.rows.Pairwise (fun a b => a.id < b.id) ∧ ∀ r ∈ st.rows, r.id < st.nextId

/-- An item whose dict lacks the `word` key. -/
def w_item_missing_word : VocabItem := ⟨none, some "m", none, none⟩

/-- An item whose word normalizes to `checkup`. -/
def w_item_checkup : VocabItem := ⟨some " Checkup", none, none, none⟩

/-- A stored row with difficulty 3. -/
def w_row3 : StoredEntry := ⟨1, "hello", none, none, none, none, none, some 3, "ts"⟩

/-- A one-row store whose only row has difficulty 3. -/
def w_store3 : Store := ⟨[w_row3], 2⟩

/-- A row in a pre-migration database, hence with no difficulty value. -/
def w_row_nodiff : StoredEntry := ⟨1, "hello", none, none, none, none, none, none, "ts"⟩

/-- A pre-migration database: table present, `difficulty` column absent. -/
def w_db_old : DB := ⟨true, false, [w_row_nodiff]⟩

/- ===== Helper lemmas ===== -/

theorem matching_rows_some (st : Store) (d : Int) :
    matching_rows st (some d) = st.rows.filter (fun r => decide (r.difficulty = some d)) := rfl

theorem absorb_words_nil (s : List String) : absorb_words s [] = s := rfl

theorem absorb_words_cons (s : List String) (it : VocabItem) (rest : List VocabItem) :
    absorb_words s (it :: rest)
      = absorb_words (if normalize_word it = "" then s else add_word s (normalize_word it)) rest := rfl

theorem mem_add_word (s : List String) (w : String) : w ∈ add_word s w := by
  unfold add_word
  split
  · assumption
  · simp

theorem mem_add_word_of_mem (s : List String) (v w : String) (h : v ∈ s) :
    v ∈ add_word s w := by
  unfold add_word
  split
  · exact h
  · simp [h]

theorem mem_absorb_words_of_mem :
    ∀ (items : List VocabItem) (s : List String) (v : String),
      v ∈ s → v ∈ absorb_words s items
  | [], _, _, h => h
  | it :: rest, s, v, h => by
    rw [absorb_words_cons]
    apply mem_absorb_words_of_mem rest
    split
    · exact h
    · exact mem_add_word_of_mem _ _ _ h

theorem mem_absorb_words_self :
    ∀ (items : List VocabItem) (s : List String) (it : VocabItem),
      it ∈ items → normalize_word it ≠ "" → normalize_word it ∈ absorb_words s items
  | [], _, _, hmem, _ => by simp at hmem
  | x :: rest, s, it, hmem, hw => by
    rw [absorb_words_cons]
    rcases List.mem_cons.mp hmem with rfl | h
    · rw [if_neg hw]
      exact mem_absorb_words_of_mem rest _ _ (mem_add_word s _)
    · exact mem_absorb_words_self rest _ it h hw

theorem hist_lookup_update {κ : Type} [DecidableEq κ] (h : List (κ × List String))
    (k : κ) (v : List String) : hist_lookup (hist_update h k v) k = v := by
  unfold hist_lookup hist_update
  rw [List.find?_cons_of_pos _ (by simp)]

/- ===== Claim theorems ===== -/

/-- C10: calling `insert_vocab_items` with an empty item list returns
immediately: no error, no connection opened, store unchanged. -/
theorem insert_empty_is_noop (st : Store) (topic tag : Option String)
    (difficulty : Option Int) (now : String) :
    insert_vocab_items st [] topic tag difficulty now = ⟨.ok st, false⟩ := rfl

/-- C1: when the generation call or the parse of its response fails, a
generation round — in topic mode or phrasal mode — leaves the session
state exactly as it was: the store and every context's forbidden set are
unchanged, and nothing from the failed batch is merged anywhere. -/
theorem generation_failure_merges_nothing (s : SessionState) (topic : String)
    (difficulty : Int) (e e2 : GenError) :
    page_generate_vocab_round s topic difficulty true (.error e) = s
    ∧ page_generate_phrasal_verbs_round s difficulty true (.error e2) = s
    ∧ (page_generate_vocab_round s topic difficulty true (.error e)).store = s.store
    ∧ (page_generate_phrasal_verbs_round s difficulty true (.error e2)).store = s.store
    ∧ (∀ k : String,
        get_forbidden (page_generate_vocab_round s topic difficulty true (.error e)).vocab_history k
          = get_forbidden s.vocab_history k)
    ∧ (∀ k : Int,
        get_forbidden (page_generate_phrasal_verbs_round s difficulty true (.error e2)).phrasal_history k
          = get_forbidden s.phrasal_history k) :=
  ⟨rfl, rfl, rfl, rfl, fun _ => rfl, fun _ => rfl⟩

/-- C2 counterexample: at the malformed inputs count = 0 (vocab) and
difficulty = 9 (phrasal), the request construction succeeds instead of
failing with InvalidRequest — no validation exists in the code. -/
theorem request_stage_accepts_malformed_inputs :
    (call_gpt_for_vocab_request "doctor visit" 0 2 [] 7).isOk = true
    ∧ (call_gpt_for_phrasal_verbs_request 10 9 [] 7).isOk = true :=
  ⟨rfl, rfl⟩

/-- C2 amended: the generation functions perform no validation of count or
difficulty: for every input, malformed or not, the construction stage
succeeds with the built instruction, and the given count value is embedded
verbatim in it (no clamping). -/
theorem request_stage_never_fails (topic : String) (num_items difficulty : Int)
    (fw : List String) (seed : Int) :
    call_gpt_for_vocab_request topic num_items difficulty fw seed
        = .ok (vocab_prompt topic num_items difficulty fw seed)
    ∧ call_gpt_for_phrasal_verbs_request num_items difficulty fw seed
        = .ok (phrasal_prompt num_items difficulty fw seed)
    ∧ (∃ a b : String,
        vocab_prompt topic num_items difficulty fw seed = a ++ (toString num_items ++ b))
    ∧ (∃ a b : String,
        phrasal_prompt num_items difficulty fw seed = a ++ (toString num_items ++ b)) :=
  ⟨rfl, rfl,
    by simp only [vocab_prompt, String.append_assoc]; exact ⟨_, _, rfl⟩,
    by simp only [phrasal_prompt, String.append_assoc]; exact ⟨_, _, rfl⟩⟩

/-- C3 counterexample: a parsed array containing a bare string element, or
an element lacking `word`, is returned unchanged by the validation step
rather than rejected. -/
theorem validator_passes_malformed_items_through :
    parse_generation_output (some (.arr [.str "hello"])) = .ok (.arr [.str "hello"])
    ∧ spec_wellformed_item (.str "hello") = false
    ∧ parse_generation_output (some (.arr [.obj [("meaning_en", .str "x")]]))
        = .ok (.arr [.obj [("meaning_en", .str "x")]])
    ∧ spec_wellformed_item (.obj [("meaning_en", .str "x")]) = false :=
  ⟨rfl, by decide, rfl, by decide⟩

/-- C3 amended: the validation step is exactly JSON decoding: it fails with
MalformedGenerationOutput precisely when the raw text is not valid JSON,
and on success returns the decoded document unchanged, enforcing no
per-item shape (elements need not be objects nor supply `word`). -/
theorem validator_is_json_decoding_only (v : Json) :
    parse_generation_output (some v) = .ok v
    ∧ parse_generation_output none = .error .malformedGenerationOutput :=
  ⟨rfl, rfl⟩

/-- C4: absorbing a batch into a context's history puts every word of the
batch that is non-empty after trim/lower-case normalization into the
forbidden list subsequently read for that context; and reading the
forbidden list twice without an intervening absorb yields the same sorted
sequence (reading is a pure function of the tracker state). -/
theorem absorb_get_forbidden_round_trip {κ : Type} [DecidableEq κ]
    (h : List (κ × List String)) (k : κ) (items : List VocabItem) (it : VocabItem)
    (hmem : it ∈ items) (hw : normalize_word it ≠ "") :
    normalize_word it ∈ get_forbidden (absorb h k items) k
    ∧ get_forbidden (absorb h k items) k = get_forbidden (absorb h k items) k := by
  constructor
  · unfold get_forbidden absorb
    rw [hist_lookup_update]
    exact ((List.mergeSort_perm _ str_le).mem_iff).mpr
      (mem_absorb_words_self items _ it hmem hw)
  · rfl

/-- C4 witness at a concrete tracker, context and batch. -/
theorem absorb_get_forbidden_round_trip_witness :
    normalize_word w_item_checkup
        ∈ get_forbidden (absorb ([] : List (String × List String)) "doctor" [w_item_checkup]) "doctor"
    ∧ get_forbidden (absorb ([] : List (String × List String)) "doctor" [w_item_checkup]) "doctor"
        = get_forbidden (absorb ([] : List (String × List String)) "doctor" [w_item_checkup]) "doctor" :=
  absorb_get_forbidden_round_trip [] "doctor" [w_item_checkup] w_item_checkup
    (by decide) (by decide)

/-- C6: any possible result of `get_random_items` with a difficulty filter
contains only rows of that difficulty, has length `min limit population`,
is short of `limit` only when the population is, and is empty (not an
error) when nothing matches. -/
theorem random_sampling_respects_filter (st : Store) (limit : Nat) (d : Int)
    (res : List StoredEntry) (h : get_random_items_result st limit (some d) res) :
    (∀ r ∈ res, r.difficulty = some d)
    ∧ res.length = min limit (matching_rows st (some d)).length
    ∧ (res.length < limit → (matching_rows st (some d)).length < limit)
    ∧ (matching_rows st (some d) = [] → res = []) := by
  obtain ⟨sh, hperm, rfl⟩ := h
  have hlen : sh.length = (matching_rows st (some d)).length := hperm.length_eq
  refine ⟨?_, ?_, ?_, ?_⟩
  · intro r hr
    have hmem : r ∈ matching_rows st (some d) :=
      hperm.mem_iff.mp (List.mem_of_mem_take hr)
    rw [matching_rows_some] at hmem
    simpa using List.of_mem_filter hmem
  · rw [List.length_take, hlen]
  · intro hlt
    rw [List.length_take, hlen] at hlt
    omega
  · intro hnil
    have hsh : sh = [] := by
      rw [hnil] at hperm
      exact hperm.eq_nil
    simp [hsh]

/-- C6 witness at a one-row store of difficulty 3, limit 10, with the
identity shuffle. -/
theorem random_sampling_respects_filter_witness :
    (∀ r ∈ [w_row3], r.difficulty = some 3)
    ∧ [w_row3].length = min 10 (matching_rows w_store3 (some 3)).length
    ∧ ([w_row3].length < 10 → (matching_rows w_store3 (some 3)).length < 10)
    ∧ (matching_rows w_store3 (some 3) = [] → [w_row3] = ([] : List StoredEntry)) :=
  random_sampling_respects_filter w_store3 10 3 [w_row3]
    ⟨[w_row3], by rw [matching_rows_some]; decide, by decide⟩

/-- Rows already holding no difficulty value are unchanged by clearing the
difficulty field, as the ALTER migration does. -/
theorem map_clear_difficulty_eq_self (rows : List StoredEntry)
    (hr : ∀ r ∈ rows, r.difficulty = none) :
    rows.map (fun r => { r with difficulty := none }) = rows := by
  induction rows with
  | nil => rfl
  | cons r rs ih =>
    have h1 : ({ r with difficulty := none } : StoredEntry) = r := by
      have hd := hr r (List.mem_cons_self r rs)
      cases r
      simp_all
    simp only [List.map_cons, h1]
    rw [ih (fun x hx => hr x (List.mem_cons_of_mem _ hx))]

/-- C8: running `init_db` on a database whose table lacks the `difficulty`
column, then again on the result, never raises and preserves every row;
the second run changes nothing at all. -/
theorem init_db_migration_idempotent (db : DB) (ht : db.tableExists = true)
    (hd : db.hasDifficulty = false) (hr : ∀ r ∈ db.rows, r.difficulty = none) :
    ∃ db1 db2 : DB, init_db db = .ok db1 ∧ init_db db1 = .ok db2
      ∧ db1.rows = db.rows ∧ db2.rows = db.rows
      ∧ db1.hasDifficulty = true ∧ db2 = db1 := by
  obtain ⟨te, hdif, rows⟩ := db
  simp only at ht hd hr
  subst ht
  subst hd
  have hmap := map_clear_difficulty_eq_self rows hr
  refine ⟨⟨true, true, rows⟩, ⟨true, true, rows⟩, ?_, ?_, rfl, rfl, rfl, rfl⟩
  · simp [init_db, create_table_if_not_exists, alter_table_add_difficulty, hmap]
  · simp [init_db, create_table_if_not_exists, alter_table_add_difficulty]

/-- C8 witness on a concrete one-row pre-migration database. -/
theorem init_db_migration_idempotent_witness :
    ∃ db1 db2 : DB, init_db w_db_old = .ok db1 ∧ init_db db1 = .ok db2
      ∧ db1.rows = w_db_old.rows ∧ db2.rows = w_db_old.rows
      ∧ db1.hasDifficulty = true ∧ db2 = db1 :=
  init_db_migration_idempotent w_db_old rfl rfl (by decide)

/-- A batch containing an item without a `word` value makes the INSERT
loop raise the NOT NULL violation, whichever position the item is at. -/
theorem run_inserts_missing_word :
    ∀ (nid : Nat) (items : List VocabItem) (topic tag : Option String)
      (d : Option Int) (now : String),
      (∃ it ∈ items, it.word = none) →
      run_inserts nid items topic tag d now = .error .notNullViolation
  | _, [], _, _, _, _, h => by simp at h
  | nid, it :: rest, topic, tag, d, now, h => by
    cases hw : it.word with
    | none => simp [run_inserts, hw]
    | some w =>
      have hrest : ∃ x ∈ rest, x.word = none := by
        obtain ⟨x, hx, hxw⟩ := h
        rcases List.mem_cons.mp hx with rfl | hx2
        · rw [hw] at hxw
          cases hxw
        · exact ⟨x, hx2, hxw⟩
      have hrec := run_inserts_missing_word (nid + 1) rest topic tag d now hrest
      simp [run_inserts, hw, hrec]

/-- C9: inserting a non-empty batch in which some item lacks a `word`
value fails with the NOT NULL constraint error before the commit, and the
durable store keeps none of the batch's rows — those before the offending
item included. -/
theorem insert_missing_word_persists_nothing (st : Store) (items : List VocabItem)
    (topic tag : Option String) (d : Option Int) (now : String)
    (hne : items ≠ []) (hbad : ∃ it ∈ items, it.word = none) :
    (insert_vocab_items st items topic tag d now).result = .error .notNullViolation
    ∧ apply_insert st ⟨items, topic, tag, d, now⟩ = st := by
  have hrun := run_inserts_missing_word st.nextId items topic tag d now hbad
  have hemp : items.isEmpty = false := by
    cases items with
    | nil => exact absurd rfl hne
    | cons a l => rfl
  constructor
  · simp [insert_vocab_items, hemp, hrun]
  · simp [apply_insert, insert_vocab_items, hemp, hrun]

/-- C9 witness: a singleton batch whose item has no `word`. -/
theorem insert_missing_word_persists_nothing_witness :
    (insert_vocab_items Store.empty [w_item_missing_word] none none none "ts").result
        = .error .notNullViolation
    ∧ apply_insert Store.empty ⟨[w_item_missing_word], none, none, none, "ts"⟩ = Store.empty :=
  insert_missing_word_persists_nothing Store.empty [w_item_missing_word] none none none "ts"
    (by decide) (by decide)

/-- The INSERT loop assigns consecutive ids from `nid` upward: the produced
rows are strictly ascending in id and bounded by the batch length. -/
theorem run_inserts_ok_ids :
    ∀ (nid : Nat) (items : List VocabItem) (topic tag : Option String)
      (d : Option Int) (now : String) (rows : List StoredEntry),
      run_inserts nid items topic tag d now = .ok rows →
      rows.Pairwise (fun a b => a.id < b.id)
        ∧ ∀ r ∈ rows, nid ≤ r.id ∧ r.id < nid + items.length
  | nid, [], _, _, _, _, rows, h => by
    simp only [run_inserts] at h
    injection h with h
    subst h
    exact ⟨List.Pairwise.nil, by simp⟩
  | nid, it :: rest, topic, tag, d, now, rows, h => by
    simp only [run_inserts] at h
    cases hw : it.word with
    | none => rw [hw] at h; cases h
    | some w =>
      rw [hw] at h
      cases hr : run_inserts (nid + 1) rest topic tag d now with
      | error e => rw [hr] at h; cases h
      | ok tailRows =>
        rw [hr] at h
        injection h with h
        subst h
        obtain ⟨hp, hb⟩ := run_inserts_ok_ids (nid + 1) rest topic tag d now tailRows hr
        constructor
        · exact List.Pairwise.cons (fun r hm => by have := (hb r hm).1; simp; omega) hp
        · intro r hmem
          rcases List.mem_cons.mp hmem with rfl | hm
          · simp
          · have := hb r hm
            simp only [List.length_cons]
            omega

/-- One `insert_vocab_items` call preserves store well-formedness. -/
theorem StoreWF_apply_insert (st : Store) (b : InsertBatch) (h : StoreWF st) :
    StoreWF (apply_insert st b) := by
  cases hemp : b.items.isEmpty with
  | true =>
    have heq : apply_insert st b = st := by
      simp [apply_insert, insert_vocab_items, hemp]
    rw [heq]
    exact h
  | false =>
    cases hr : run_inserts st.nextId b.items b.topic b.tag b.difficulty b.now with
    | error e =>
      have heq : apply_insert st b = st := by
        simp [apply_insert, insert_vocab_items, hemp, hr]
      rw [heq]
      exact h
    | ok newRows =>
      have heq : apply_insert st b
          = ⟨st.rows ++ newRows, st.nextId + b.items.length⟩ := by
        simp [apply_insert, insert_vocab_items, hemp, hr]
      rw [heq]
      obtain ⟨hp1, hb1⟩ := h
      obtain ⟨hp2, hb2⟩ := run_inserts_ok_ids _ _ _ _ _ _ _ hr
      refine ⟨?_, ?_⟩
      · show (st.rows ++ newRows).Pairwise (fun a b => a.id < b.id)
        apply List.pairwise_append.mpr
        refine ⟨hp1, hp2, ?_⟩
        intro a ha c hc
        have h1 := hb1 a ha
        have h2 := (hb2 c hc).1
        omega
      · show ∀ r ∈ st.rows ++ newRows, r.id < st.nextId + b.items.length
        intro r hmem
        rcases List.mem_append.mp hmem with hm | hm
        · have := hb1 r hm
          omega
        · have := (hb2 r hm).2
          omega

/-- Every store reachable by a sequence of inserts from the fresh store is
well-formed. -/
theorem StoreWF_replay (batches : List InsertBatch) : StoreWF (replay batches) := by
  have hgen : ∀ (bs : List InsertBatch) (st : Store), StoreWF st →
      StoreWF (bs.foldl apply_insert st) := by
    intro bs
    induction bs with
    | nil => intro st h; exact h
    | cons b rest ih =>
      intro st h
      exact ih _ (StoreWF_apply_insert st b h)
  exact hgen batches Store.empty ⟨List.Pairwise.nil, by simp [Store.empty]⟩

/-- Sorting id-ascending rows by `ORDER BY id DESC` reverses them. -/
theorem mergeSort_le_id_of_ascending (rows : List StoredEntry)
    (h : rows.Pairwise (fun a b => a.id < b.id)) :
    rows.mergeSort le_id = rows.reverse := by
  have hperm : (rows.mergeSort le_id).Perm rows := List.mergeSort_perm rows le_id
  have hsorted : (rows.mergeSort le_id).Pairwise (fun a b => le_id a b = true) :=
    List.sorted_mergeSort
      (fun a b c h1 h2 => by simp only [le_id, decide_eq_true_eq] at *; omega)
      (fun a b => by simp only [le_id, Bool.or_eq_true, decide_eq_true_eq]; omega)
      rows
  have hnd : (rows.map (fun r => r.id)).Nodup :=
    List.pairwise_map.mpr (h.imp (fun hab => Nat.ne_of_lt hab))
  have hndm : ((rows.mergeSort le_id).map (fun r => r.id)).Nodup :=
    ((hperm.map (fun r => r.id)).nodup_iff).mpr hnd
  have hne : (rows.mergeSort le_id).Pairwise (fun a b => a.id ≠ b.id) :=
    List.pairwise_map.mp hndm
  have hstrict : (rows.mergeSort le_id).Pairwise (fun a b => b.id < a.id) :=
    (hsorted.and hne).imp
      (fun hab => by
        obtain ⟨h1, h2⟩ := hab
        simp only [le_id, decide_eq_true_eq] at h1
        omega)
  have hrev : rows.reverse.Pairwise (fun a b => b.id < a.id) := by
    rw [List.pairwise_reverse]
    exact h
  have hpermrev : (rows.mergeSort le_id).Perm rows.reverse :=
    hperm.trans rows.reverse_perm.symm
  haveI : IsAntisymm StoredEntry (fun a b => b.id < a.id) :=
    ⟨fun a b h1 h2 => absurd (Nat.lt_trans h1 h2) (Nat.lt_irrefl _)⟩
  exact List.eq_of_perm_of_sorted hpermrev hstrict hrev

/-- C5: after any sequence of inserts into a fresh store, `recent(N)`
returns exactly the last `min(N, total)` inserted rows, most recently
inserted first, with strictly descending ids. -/
theorem recent_returns_last_inserted (batches : List InsertBatch) (N : Nat) :
    get_recent_items N (replay batches) = (replay batches).rows.reverse.take N
    ∧ (get_recent_items N (replay batches)).length = min N (replay batches).rows.length
    ∧ ((get_recent_items N (replay batches)).map (fun r => r.id)).Pairwise
        (fun a b => b < a) := by
  obtain ⟨hp, _⟩ := StoreWF_replay batches
  have hsort := mergeSort_le_id_of_ascending _ hp
  have hrev : (replay batches).rows.reverse.Pairwise (fun a b => b.id < a.id) := by
    rw [List.pairwise_reverse]
    exact hp
  refine ⟨?_, ?_, ?_⟩
  · unfold get_recent_items
    rw [hsort]
  · unfold get_recent_items
    rw [hsort, List.length_take, List.length_reverse]
  · unfold get_recent_items
    rw [hsort]
    exact List.pairwise_map.mpr
      (List.Pairwise.sublist (List.take_sublist N _) hrev)

/-- Transitivity of the lexicographic code-point order. -/
theorem chars_le_trans :
    ∀ a b c : List Char, chars_le a b = true → chars_le b c = true → chars_le a c = true
  | [], _, _, _, _ => rfl
  | _ :: _, [], _, h1, _ => by simp [chars_le] at h1
  | _ :: _, _ :: _, [], _, h2 => by simp [chars_le] at h2
  | x :: xs, y :: ys, z :: zs, h1, h2 => by
    simp only [chars_le] at h1 h2 ⊢
    by_cases hxy : x.toNat < y.toNat
    · by_cases hyz : y.toNat < z.toNat
      · rw [if_pos (show x.toNat < z.toNat by omega)]
      · by_cases hzy : z.toNat < y.toNat
        · rw [if_neg hyz, if_pos hzy] at h2
          exact absurd h2 (by simp)
        · rw [if_pos (show x.toNat < z.toNat by omega)]
    · by_cases hyx : y.toNat < x.toNat
      · rw [if_neg hxy, if_pos hyx] at h1
        exact absurd h1 (by simp)
      · rw [if_neg hxy, if_neg hyx] at h1
        by_cases hyz : y.toNat < z.toNat
        · rw [if_pos (show x.toNat < z.toNat by omega)]
        · by_cases hzy : z.toNat < y.toNat
          · rw [if_neg hyz, if_pos hzy] at h2
            exact absurd h2 (by simp)
          · rw [if_neg hyz, if_neg hzy] at h2
            rw [if_neg (show ¬x.toNat < z.toNat by omega),
              if_neg (show ¬z.toNat < x.toNat by omega)]
            exact chars_le_trans xs ys zs h1 h2

/-- Totality of the lexicographic code-point order. -/
theorem chars_le_total :
    ∀ a b : List Char, (chars_le a b || chars_le b a) = true
  | [], _ => by simp [chars_le]
  | _ :: _, [] => by simp [chars_le]
  | x :: xs, y :: ys => by
    by_cases h1 : x.toNat < y.toNat
    · simp [chars_le, h1]
    · by_cases h2 : y.toNat < x.toNat
      · simp [chars_le, h1, h2]
      · have := chars_le_total xs ys
        simp only [chars_le, if_neg h1, if_neg h2]
        exact this

theorem str_le_trans (a b c : String) (h1 : str_le a b = true) (h2 : str_le b c = true) :
    str_le a c = true :=
  chars_le_trans _ _ _ h1 h2

theorem str_le_total (a b : String) : (str_le a b || str_le b a) = true :=
  chars_le_total _ _

/-- Under tracker-normalized inputs the unique-term list is the sorted
deduplication of the forbidden words themselves. -/
theorem unique_terms_of_normalized (fw : List String)
    (hnorm : ∀ w ∈ fw, py_strip w = w ∧ w ≠ "") :
    unique_terms fw = fw.dedup.mergeSort str_le := by
  unfold unique_terms
  have hfil : fw.filter (fun w => decide (w ≠ "")) = fw :=
    List.filter_eq_self.mpr (fun a ha => by simp [(hnorm a ha).2])
  have hmap : fw.map py_strip = fw := by
    rw [List.map_congr_left (fun a ha => (hnorm a ha).1)]
    exact List.map_id fw
  rw [hfil, hmap]

/-- C7: for a non-empty forbidden list as the Tracker supplies it (terms
already trimmed and non-empty), both rendered do-not-reuse clauses embed
the forbidden terms deduplicated, sorted by the deterministic code-point
order, truncated to the first 200 entries after sorting, and rendered as
given — the term list has exactly the given members, with no case change. -/
theorem forbidden_clause_sorted_dedup_truncated (fw : List String) (hne : fw ≠ [])
    (hnorm : ∀ w ∈ fw, py_strip w = w ∧ w ≠ "") :
    ∃ u : List String,
      forbidden_block_vocab fw
        = vocab_forbidden_intro ++ String.intercalate ", " (u.take 200)
            ++ vocab_forbidden_outro
      ∧ forbidden_block_phrasal fw
        = phrasal_forbidden_intro ++ String.intercalate ", " (u.take 200)
            ++ phrasal_forbidden_outro
      ∧ u.Nodup
      ∧ u.Pairwise (fun a b => str_le a b = true)
      ∧ (∀ w, w ∈ u ↔ w ∈ fw)
      ∧ (u.take 200).length ≤ 200 := by
  have hu := unique_terms_of_normalized fw hnorm
  have hmem : ∀ w, w ∈ unique_terms fw ↔ w ∈ fw := by
    intro w
    rw [hu, (List.mergeSort_perm fw.dedup str_le).mem_iff]
    exact List.mem_dedup
  have hemp : fw.isEmpty = false := by
    cases fw with
    | nil => exact absurd rfl hne
    | cons a l => rfl
  have hune : (unique_terms fw).isEmpty = false := by
    cases fw with
    | nil => exact absurd rfl hne
    | cons a l =>
      have ha : a ∈ unique_terms (a :: l) := (hmem a).mpr (List.mem_cons_self a l)
      cases hcase : unique_terms (a :: l) with
      | nil => rw [hcase] at ha; simp at ha
      | cons x xs => rfl
  refine ⟨unique_terms fw, ?_, ?_, ?_, ?_, hmem, ?_⟩
  · simp [forbidden_block_vocab, hemp, hune]
  · simp [forbidden_block_phrasal, hemp, hune]
  · rw [hu]
    exact ((List.mergeSort_perm fw.dedup str_le).nodup_iff).mpr (List.nodup_dedup fw)
  · rw [hu]
    exact List.sorted_mergeSort str_le_trans str_le_total fw.dedup
  · rw [List.length_take]
    omega

/-- C7 witness at the concrete forbidden list `beta, alpha`. -/
theorem forbidden_clause_sorted_dedup_truncated_witness :
    ∃ u : List String,
      forbidden_block_vocab ["beta", "alpha"]
        = vocab_forbidden_intro ++ String.intercalate ", " (u.take 200)
            ++ vocab_forbidden_outro
      ∧ forbidden_block_phrasal ["beta", "alpha"]
        = phrasal_forbidden_intro ++ String.intercalate ", " (u.take 200)
            ++ phrasal_forbidden_outro
      ∧ u.Nodup
      ∧ u.Pairwise (fun a b => str_le a b = true)
      ∧ (∀ w, w ∈ u ↔ w ∈ ["beta", "alpha"])
      ∧ (u.take 200).length ≤ 200 :=
  forbidden_clause_sorted_dedup_truncated ["beta", "alpha"] (by decide) (by decide)
